import Mathlib

/-!
# TestRestApi: the OpenCV resize bridge

A shallow embedding of `src/image/transformation/opencv_resize.cpp`: the two
module-level variables `out_ptr` and `store`, and the two functions of the flat
C interface, `register_output` and `resize`.

Modelling conventions.

* A `void *` and a function pointer are addresses, natural numbers, with
  `nullptr = 0`.
* The `int32_t` arguments are integers; the code only compares them with `0`
  and hands them on, so no wrap-around arises.
* OpenCV and the caller's side of the boundary are not part of the repository.
  They are a parameter, `World`: what the caller's memory holds, whether an
  allocation succeeds, what `cv::imdecode`, `cv::resize` and `cv::imencode`
  compute or whether they throw, and whether a call through a function pointer
  returns or throws.
* Every library call and every call through `store` is recorded in a trace, in
  the order of execution, so that "was never invoked" is a statement about the
  trace of one call.
* A callback does not call back into this module (the bridge is documented as
  not reentrant), so a call of `resize` leaves `out_ptr` and `store` alone.
-/

namespace OpencvResize

/-- An address: a `void *` or a function pointer. -/
abbrev Ptr := Nat

/-- The null pointer. -/
def nullptr : Ptr := 0

/-- OpenCV's `CV_8UC1`: 8-bit, one channel. -/
def CV_8UC1 : Nat := 0

/-- OpenCV's `CV_8UC3`: 8-bit, three channels. -/
def CV_8UC3 : Nat := 16

/-- OpenCV's `cv::IMREAD_COLOR`. -/
def IMREAD_COLOR : Nat := 1

/-- Something thrown; `catch(...)` catches every one of them. -/
inductive Fault where
  | cvException
  | badAlloc
  | foreign
  deriving DecidableEq, Repr

/-- The type `cv::Size`. -/
structure Size where
  width : Int
  height : Int
  deriving DecidableEq, Repr

/-- The method `cv::Size::empty()`. -/
def Size.empty (sz : Size) : Bool :=
  decide (sz.width ≤ 0) || decide (sz.height ≤ 0)

/-- The type `cv::Mat`, as far as the bridge looks at it: the header and the
bytes behind `data`, where `none` is a null `data` pointer. -/
structure Mat where
  rows : Int
  cols : Int
  type : Nat
  data : Option (List Nat)
  deriving DecidableEq, Repr

/-- The method `cv::Mat::size()`: width is the number of columns, height the
number of rows. -/
def Mat.size (m : Mat) : Size :=
  ⟨m.cols, m.rows⟩

/-- Everything outside the repository that a call depends on. -/
structure World where
  /-- The `n` bytes of caller memory at an address. -/
  load : Ptr → Nat → List Nat
  /-- Whether an allocation of `n` bytes succeeds. -/
  alloc : Nat → Bool
  /-- The function `cv::imdecode(buf, flags)`. -/
  imdecode : Mat → Nat → Except Fault Mat
  /-- The function `cv::resize(src, dst, dsize)`: the new value of `dst`. -/
  cvResize : Mat → Mat → Size → Except Fault Mat
  /-- The function `cv::imencode(ext, img, buf)`: its `bool` result and the
  bytes left in `buf`. -/
  imencode : String → Mat → Except Fault (Bool × List Nat)
  /-- A call `fn(handle, data, size)` through a function pointer of type
  `rust_callback`: it returns, or it throws. -/
  call : Ptr → Ptr → List Nat → Nat → Except Fault Unit

/-- One observable step of a call of `resize`. -/
inductive Event where
  | imdecode (buf : Mat) (flags : Nat)
  | matCreate (rows cols : Int) (type : Nat)
  | cvResize (src dst : Mat) (dsize : Size)
  | imencode (ext : String) (img : Mat)
  | store (fn handle : Ptr) (data : List Nat) (len : Nat)
  deriving DecidableEq, Repr

/-- Whether an event is a call through the registered callback. -/
def Event.isStore : Event → Bool
  | .store _ _ _ _ => true
  | _ => false

/-- Whether an event is one of the decode, resize or encode steps (the
allocation of the destination matrix counts with the resize step). -/
def Event.isStage : Event → Bool
  | .store _ _ _ _ => false
  | _ => true

/-- The module-level variables `out_ptr` and `store`. -/
structure Sink where
  out_ptr : Ptr
  store : Ptr
  deriving DecidableEq, Repr

/-- The state at program start: `out_ptr = nullptr`, `store = nullptr`. -/
def Sink.init : Sink :=
  ⟨nullptr, nullptr⟩

/-- Both variables are set. -/
def Sink.registered (s : Sink) : Prop :=
  s.out_ptr ≠ nullptr ∧ s.store ≠ nullptr

instance (s : Sink) : Decidable s.registered := by
  unfold Sink.registered; exact inferInstance

/-- The function `register_output`: the returned status and the variables
after the call. -/
def register_output (s : Sink) (output store_function : Ptr) : Int × Sink :=
  if output = nullptr ∨ store_function = nullptr then
    (-1, s)
  else
    (0, { out_ptr := output, store := store_function })

/-- The constructor `cv::Mat(rows, cols, type, cv::Scalar(0.))`: a freshly
allocated matrix of zeros, or a throw when the allocation fails. -/
def Mat.zeros (w : World) (rows cols : Int) (type : Nat) : Except Fault Mat :=
  if w.alloc (rows * cols).toNat then
    .ok ⟨rows, cols, type, some (List.replicate (rows * cols).toNat 0)⟩
  else
    .error .badAlloc

/-- The constructor `cv::Mat{1, in_size, CV_8UC1, in_ptr}`: a header over the
caller's buffer; nothing is allocated or copied. -/
def in_m (w : World) (in_ptr : Ptr) (in_size : Int) : Mat :=
  ⟨1, in_size, CV_8UC1, some (w.load in_ptr in_size.toNat)⟩

/-- How control leaves the `try` block of `resize`. -/
inductive Flow where
  | returned (status : Int)
  | fellThrough
  | thrown (f : Fault)
  deriving DecidableEq, Repr

/-- The `try` block of `resize` (lines 40 to 52): how control leaves it, and
the trace of what ran. -/
def tryBlock (w : World) (s : Sink) (in_ptr : Ptr) (in_size num_rows num_cols : Int) :
    Flow × List Event :=
  let e1 := Event.imdecode (in_m w in_ptr in_size) IMREAD_COLOR
  match w.imdecode (in_m w in_ptr in_size) IMREAD_COLOR with
  | .error f => (.thrown f, [e1])
  | .ok src =>
    if src.data = none ∨ src.size.empty = true then
      (.returned (-3), [e1])
    else
      let e2 := Event.matCreate num_rows num_cols CV_8UC1
      match Mat.zeros w num_rows num_cols CV_8UC1 with
      | .error f => (.thrown f, [e1, e2])
      | .ok dst_m =>
        let e3 := Event.cvResize src dst_m dst_m.size
        match w.cvResize src dst_m dst_m.size with
        | .error f => (.thrown f, [e1, e2, e3])
        | .ok dst =>
          let e4 := Event.imencode ".jpg" dst
          match w.imencode ".jpg" dst with
          | .error f => (.thrown f, [e1, e2, e3, e4])
          | .ok (_, buff) =>
            let e5 := Event.store s.store s.out_ptr buff buff.length
            match w.call s.store s.out_ptr buff buff.length with
            | .error f => (.thrown f, [e1, e2, e3, e4, e5])
            | .ok _ => (.fellThrough, [e1, e2, e3, e4, e5])

/-- The result of one call of `resize`: the returned status and the trace. -/
structure Outcome where
  status : Int
  trace : List Event
  deriving DecidableEq, Repr

/-- The function `resize`. It assigns neither `out_ptr` nor `store`. -/
def resize (w : World) (s : Sink) (in_ptr : Ptr) (in_size num_rows num_cols : Int) :
    Outcome :=
  if s.out_ptr = nullptr ∨ s.store = nullptr then
    ⟨-1, []⟩
  else if in_ptr = nullptr ∨ in_size ≤ 0 ∨ num_rows ≤ 0 ∨ num_cols ≤ 0 then
    ⟨-2, []⟩
  else
    match tryBlock w s in_ptr in_size num_rows num_cols with
    | (.thrown _, t) => ⟨-4, t⟩
    | (.returned status, t) => ⟨status, t⟩
    | (.fellThrough, t) => ⟨0, t⟩

/-- The callback invocations of one call of `resize`. -/
def Outcome.callbacks (o : Outcome) : List Event :=
  o.trace.filter Event.isStore

/-- The decode, resize and encode steps that one call of `resize` ran. -/
def Outcome.stages (o : Outcome) : List Event :=
  o.trace.filter Event.isStage

/-! ## Sequences of calls -/

/-- One call across the boundary. -/
inductive Call where
  | register_output (output store_function : Ptr)
  | resize (in_ptr : Ptr) (in_size num_rows num_cols : Int)
  deriving DecidableEq, Repr

/-- Whether a call is a call of `resize`. -/
def Call.isResize : Call → Bool
  | .resize _ _ _ _ => true
  | .register_output _ _ => false

/-- What one call of a sequence did. -/
structure Record where
  call : Call
  outcome : Outcome
  deriving DecidableEq, Repr

/-- One call: the variables after it, and its record. A call of
`register_output` has an empty trace. -/
def step (w : World) (s : Sink) : Call → Sink × Record
  | .register_output o f =>
    ((register_output s o f).2, ⟨.register_output o f, ⟨(register_output s o f).1, []⟩⟩)
  | .resize p n r c =>
    (s, ⟨.resize p n r c, resize w s p n r c⟩)

/-- A sequence of calls, one after the other. -/
def run (w : World) (s : Sink) : List Call → Sink × List Record
  | [] => (s, [])
  | c :: cs =>
    let (s1, r) := step w s c
    let (s2, rs) := run w s1 cs
    (s2, r :: rs)

/-- No call of `register_output` in the log returned `0`. -/
def noSuccessfulRegister (log : List Record) : Prop :=
  ∀ r ∈ log, r.call.isResize = false → r.outcome.status ≠ 0

instance (log : List Record) : Decidable (noSuccessfulRegister log) := by
  unfold noSuccessfulRegister; exact inferInstance

/-- The function pointer an event calls through, if it is a callback
invocation. -/
def Event.callee : Event → Option Ptr
  | .store fn _ _ _ => some fn
  | _ => none

/-- The destination handle an event passes to a callback, if it is a callback
invocation. -/
def Event.handle : Event → Option Ptr
  | .store _ handle _ _ => some handle
  | _ => none

/-- The arguments pass the input check of `resize` (line 32). -/
def validArgs (in_ptr : Ptr) (in_size num_rows num_cols : Int) : Prop :=
  in_ptr ≠ nullptr ∧ 0 < in_size ∧ 0 < num_rows ∧ 0 < num_cols

instance (in_ptr : Ptr) (in_size num_rows num_cols : Int) :
    Decidable (validArgs in_ptr in_size num_rows num_cols) := by
  unfold validArgs; exact inferInstance

/-- The documented postcondition of `cv::resize` for a non-empty `dsize`: the
destination has `dsize.height` rows and `dsize.width` columns. -/
def ResizeContract (w : World) : Prop :=
  ∀ (src dst : Mat) (dsize : Size) (out : Mat),
    0 < dsize.width → 0 < dsize.height →
    w.cvResize src dst dsize = .ok out →
    out.rows = dsize.height ∧ out.cols = dsize.width

/-- One of the decode, resize or encode steps of a call throws: the decoder;
or, for a non-empty decoded image, the allocation of the destination, the
resize to width `num_cols` and height `num_rows`, or the encoder. -/
def StageThrows (w : World) (in_ptr : Ptr) (in_size num_rows num_cols : Int) : Prop :=
  (∃ f, w.imdecode (in_m w in_ptr in_size) IMREAD_COLOR = .error f) ∨
  (∃ src, w.imdecode (in_m w in_ptr in_size) IMREAD_COLOR = .ok src ∧
    src.data ≠ none ∧ src.size.empty = false ∧
    ((∃ f, Mat.zeros w num_rows num_cols CV_8UC1 = .error f) ∨
     (∃ dst_m, Mat.zeros w num_rows num_cols CV_8UC1 = .ok dst_m ∧
       ((∃ f, w.cvResize src dst_m ⟨num_cols, num_rows⟩ = .error f) ∨
        (∃ dst, w.cvResize src dst_m ⟨num_cols, num_rows⟩ = .ok dst ∧
          ∃ f, w.imencode ".jpg" dst = .error f)))))

/-- The decode, resize and encode steps of a call all succeed on a non-empty
decoded image, and the encoder leaves `buff`. -/
def StagesSucceed (w : World) (in_ptr : Ptr) (in_size num_rows num_cols : Int)
    (buff : List Nat) : Prop :=
  ∃ (src dst_m dst : Mat) (ok : Bool),
    w.imdecode (in_m w in_ptr in_size) IMREAD_COLOR = .ok src ∧
    src.data ≠ none ∧ src.size.empty = false ∧
    Mat.zeros w num_rows num_cols CV_8UC1 = .ok dst_m ∧
    w.cvResize src dst_m ⟨num_cols, num_rows⟩ = .ok dst ∧
    w.imencode ".jpg" dst = .ok (ok, buff)

/-! ## A small concrete world

A toy codec, to evaluate the bridge on concrete inputs: an encoded image is
`[77, rows, cols]` followed by the pixels; a buffer starting with `66` makes the
decoder throw; anything else decodes to the empty matrix. -/

/-- The toy decoder. -/
def toyDecode (buf : Mat) ( _flags : Nat) : Except Fault Mat :=
  match buf.data with
  | some (77 :: r :: c :: px) => .ok ⟨r, c, CV_8UC3, some px⟩
  | some (66 :: _) => .error .cvException
  | _ => .ok ⟨0, 0, CV_8UC1, none⟩

/-- The toy resize: the destination gets the requested size and the type of
the source, filled with the first source byte. -/
def toyResize (src _dst : Mat) (dsize : Size) : Except Fault Mat :=
  .ok ⟨dsize.height, dsize.width, src.type,
    some (List.replicate (dsize.height * dsize.width).toNat ((src.data.getD []).headD 0))⟩

/-- The toy encoder. -/
def toyEncode ( _ext : String) (img : Mat) : Except Fault (Bool × List Nat) :=
  .ok (true, 77 :: img.rows.toNat :: img.cols.toNat :: img.data.getD [])

/-- The toy memory: a 4x4 image at address `100`, a buffer that makes the
decoder throw at `300`, and bytes that are no image elsewhere. -/
def toyLoad (p : Ptr) (n : Nat) : List Nat :=
  if p = 100 then (77 :: 4 :: 4 :: List.replicate 16 5).take n
  else if p = 300 then (List.replicate 8 66).take n
  else (List.replicate 8 1).take n

/-- The toy callbacks: the function at address `9` throws, every other one
returns. -/
def toyCall (fn _handle : Ptr) ( _data : List Nat) ( _len : Nat) : Except Fault Unit :=
  if fn = 9 then .error .foreign else .ok ()

/-- The toy world. -/
def toy : World :=
  { load := toyLoad
    alloc := fun _ => true
    imdecode := toyDecode
    cvResize := toyResize
    imencode := toyEncode
    call := toyCall }

/-! ## Registration -/

/-- C1: with both arguments non-null, `register_output` returns `0` and the
variables afterwards are exactly `out_ptr = output`, `store = store_function`,
whatever they held before. -/
theorem register_output_success (s : Sink) (output store_function : Ptr)
    (ho : output ≠ nullptr) (hf : store_function ≠ nullptr) :
    register_output s output store_function
      = (0, { out_ptr := output, store := store_function }) := by
  simp [register_output, ho, hf]

/-- C1 at a concrete call that overwrites a previous registration. -/
theorem register_output_success_witness :
    (7 : Ptr) ≠ nullptr ∧ (8 : Ptr) ≠ nullptr ∧
      register_output ⟨3, 4⟩ 7 8 = (0, { out_ptr := 7, store := 8 }) :=
  ⟨by decide, by decide, register_output_success ⟨3, 4⟩ 7 8 (by decide) (by decide)⟩

/-- C2: when `output` is null or `store_function` is null, `register_output`
returns `-1` and both variables are as they were before the call. -/
theorem register_output_null (s : Sink) (output store_function : Ptr)
    (h : output = nullptr ∨ store_function = nullptr) :
    register_output s output store_function = (-1, s) := by
  simp [register_output, h]

/-- C2 at a concrete call with a null callback and a previous registration. -/
theorem register_output_null_witness :
    ((7 : Ptr) = nullptr ∨ (0 : Ptr) = nullptr) ∧
      register_output ⟨3, 4⟩ 7 0 = (-1, ⟨3, 4⟩) :=
  ⟨by decide, register_output_null ⟨3, 4⟩ 7 0 (by decide)⟩

/-! ## The checks at the head of `resize` -/

/-- With the variables unset, `resize` returns `-1` with an empty trace. -/
theorem resize_of_not_registered (w : World) (s : Sink)
    (h : s.out_ptr = nullptr ∨ s.store = nullptr)
    (in_ptr : Ptr) (in_size num_rows num_cols : Int) :
    resize w s in_ptr in_size num_rows num_cols = ⟨-1, []⟩ := by
  simp [resize, h]

/-- A sequence of calls without a successful `register_output` leaves the
variables as they are, and each of its `resize` calls on an unregistered sink
returns `-1` with an empty trace. -/
theorem run_of_noSuccessfulRegister (w : World) (calls : List Call) (s : Sink)
    (hs : s.out_ptr = nullptr ∨ s.store = nullptr)
    (h : noSuccessfulRegister (run w s calls).2) :
    (run w s calls).1 = s ∧
      ∀ r ∈ (run w s calls).2, r.call.isResize = true → r.outcome = ⟨-1, []⟩ := by
  induction calls generalizing s with
  | nil => simp [run]
  | cons c cs ih =>
    cases c with
    | register_output o f =>
      have h0 := h ⟨.register_output o f, ⟨(register_output s o f).1, []⟩⟩
        (by simp [run, step]) rfl
      have hnull : o = nullptr ∨ f = nullptr := by
        by_contra hc
        apply h0
        simp [register_output, hc]
      have hst : (register_output s o f).2 = s := by simp [register_output, hnull]
      have h2 : noSuccessfulRegister (run w s cs).2 := by
        intro r hr
        apply h r
        simp [run, step, hst, hr]
      obtain ⟨ih1, ih2⟩ := ih s hs h2
      refine ⟨by simp [run, step, hst, ih1], ?_⟩
      intro r hr hres
      simp only [run, step, hst, List.mem_cons] at hr
      rcases hr with hr | hr
      · subst hr; simp [Call.isResize] at hres
      · exact ih2 r hr hres
    | resize p n rr cc =>
      have h2 : noSuccessfulRegister (run w s cs).2 := by
        intro r hr
        apply h r
        simp [run, step, hr]
      obtain ⟨ih1, ih2⟩ := ih s hs h2
      refine ⟨by simp [run, step, ih1], ?_⟩
      intro r hr hres
      simp only [run, step, List.mem_cons] at hr
      rcases hr with hr | hr
      · subst hr; exact resize_of_not_registered w s hs p n rr cc
      · exact ih2 r hr hres

/-- C3: from the initial state, after any sequence of calls none of whose
`register_output` calls returned `0`, `resize` returns `-1` for every argument
tuple, with an empty trace (no stage ran, no callback was invoked); the same
holds for every `resize` call inside the sequence. -/
theorem resize_before_registration (w : World) (calls : List Call)
    (h : noSuccessfulRegister (run w Sink.init calls).2)
    (in_ptr : Ptr) (in_size num_rows num_cols : Int) :
    resize w (run w Sink.init calls).1 in_ptr in_size num_rows num_cols = ⟨-1, []⟩ ∧
      (resize w (run w Sink.init calls).1 in_ptr in_size num_rows num_cols).callbacks = [] ∧
      ∀ r ∈ (run w Sink.init calls).2, r.call.isResize = true → r.outcome = ⟨-1, []⟩ := by
  have hinit : Sink.init.out_ptr = nullptr ∨ Sink.init.store = nullptr := Or.inl rfl
  obtain ⟨h1, h2⟩ := run_of_noSuccessfulRegister w calls Sink.init hinit h
  have h3 := resize_of_not_registered w (run w Sink.init calls).1 (by rw [h1]; exact hinit)
    in_ptr in_size num_rows num_cols
  refine ⟨h3, ?_, h2⟩
  rw [h3]; rfl

/-- C3 at a concrete sequence: two failed registrations and a `resize` with
valid arguments in between, then a `resize` with a null input pointer and
non-positive sizes. -/
theorem resize_before_registration_witness :
    noSuccessfulRegister
        (run toy Sink.init [.register_output 0 5, .resize 100 19 2 2, .register_output 5 0]).2 ∧
      resize toy (run toy Sink.init
          [.register_output 0 5, .resize 100 19 2 2, .register_output 5 0]).1 0 0 (-1) 0
        = ⟨-1, []⟩ :=
  ⟨by decide,
    (resize_before_registration toy
      [.register_output 0 5, .resize 100 19 2 2, .register_output 5 0] (by decide) 0 0 (-1) 0).1⟩

/-- With a sink registered, arguments that fail the input check make `resize`
return `-2` with an empty trace. -/
theorem resize_of_invalid (w : World) (s : Sink) (hreg : s.registered)
    (in_ptr : Ptr) (in_size num_rows num_cols : Int)
    (h : in_ptr = nullptr ∨ in_size ≤ 0 ∨ num_rows ≤ 0 ∨ num_cols ≤ 0) :
    resize w s in_ptr in_size num_rows num_cols = ⟨-2, []⟩ := by
  simp [resize, hreg.1, hreg.2, h]

/-- C4: with a sink registered, a call with a null input pointer or a
non-positive size, row count or column count returns `-2` with an empty trace:
no decode, resize or encode step ran and no callback was invoked. -/
theorem resize_invalid_input (w : World) (s : Sink) (hreg : s.registered)
    (in_ptr : Ptr) (in_size num_rows num_cols : Int)
    (h : in_ptr = nullptr ∨ in_size ≤ 0 ∨ num_rows ≤ 0 ∨ num_cols ≤ 0) :
    resize w s in_ptr in_size num_rows num_cols = ⟨-2, []⟩ ∧
      (resize w s in_ptr in_size num_rows num_cols).stages = [] ∧
      (resize w s in_ptr in_size num_rows num_cols).callbacks = [] := by
  rw [resize_of_invalid w s hreg in_ptr in_size num_rows num_cols h]
  exact ⟨rfl, rfl, rfl⟩

/-- C4 at a concrete call: a valid image buffer, but zero columns. -/
theorem resize_invalid_input_witness :
    (⟨1, 2⟩ : Sink).registered ∧
      ((100 : Ptr) = nullptr ∨ (19 : Int) ≤ 0 ∨ (2 : Int) ≤ 0 ∨ (0 : Int) ≤ 0) ∧
      resize toy ⟨1, 2⟩ 100 19 2 0 = ⟨-2, []⟩ :=
  ⟨by decide, by decide, (resize_invalid_input toy ⟨1, 2⟩ (by decide) 100 19 2 0 (by decide)).1⟩

/-! ## The pipeline -/

/-- Past both checks, `resize` is its `try` block followed by the `catch`. -/
theorem resize_of_valid (w : World) (s : Sink) (hreg : s.registered)
    (in_ptr : Ptr) (in_size num_rows num_cols : Int)
    (hv : validArgs in_ptr in_size num_rows num_cols) :
    resize w s in_ptr in_size num_rows num_cols =
      match tryBlock w s in_ptr in_size num_rows num_cols with
      | (.thrown _, t) => ⟨-4, t⟩
      | (.returned status, t) => ⟨status, t⟩
      | (.fellThrough, t) => ⟨0, t⟩ := by
  obtain ⟨h1, h2, h3, h4⟩ := hv
  have hn : ¬ (in_ptr = nullptr ∨ in_size ≤ 0 ∨ num_rows ≤ 0 ∨ num_cols ≤ 0) := by
    rintro (h | h | h | h)
    · exact h1 h
    all_goals omega
  simp only [resize, hreg.1, hreg.2, or_self, if_false, hn]

/-- The size of the destination matrix built at line 45: width `num_cols`,
height `num_rows`. -/
theorem size_of_zeros (w : World) (num_rows num_cols : Int) (type : Nat) (dst_m : Mat)
    (h : Mat.zeros w num_rows num_cols type = .ok dst_m) :
    dst_m.size = ⟨num_cols, num_rows⟩ := by
  unfold Mat.zeros at h
  split at h
  · cases h; rfl
  · cases h

/-- C5: with a sink registered and valid arguments, when the decoder returns a
matrix whose `data` is null or whose size is empty, `resize` returns `-3`; only
the decode step ran and the callback was not invoked. -/
theorem resize_decode_failed (w : World) (s : Sink) (hreg : s.registered)
    (in_ptr : Ptr) (in_size num_rows num_cols : Int)
    (hv : validArgs in_ptr in_size num_rows num_cols) (src : Mat)
    (hdec : w.imdecode (in_m w in_ptr in_size) IMREAD_COLOR = .ok src)
    (hempty : src.data = none ∨ src.size.empty = true) :
    (resize w s in_ptr in_size num_rows num_cols).status = -3 ∧
      (resize w s in_ptr in_size num_rows num_cols).callbacks = [] ∧
      (resize w s in_ptr in_size num_rows num_cols).trace
        = [.imdecode (in_m w in_ptr in_size) IMREAD_COLOR] := by
  have h : resize w s in_ptr in_size num_rows num_cols
      = ⟨-3, [.imdecode (in_m w in_ptr in_size) IMREAD_COLOR]⟩ := by
    rw [resize_of_valid w s hreg in_ptr in_size num_rows num_cols hv]
    simp only [tryBlock, hdec, hempty, if_true]
  rw [h]
  exact ⟨rfl, rfl, rfl⟩

/-- C5 at a concrete call: eight bytes that are no image. -/
theorem resize_decode_failed_witness :
    (⟨1, 2⟩ : Sink).registered ∧ validArgs 200 8 2 2 ∧
      toy.imdecode (in_m toy 200 8) IMREAD_COLOR = .ok ⟨0, 0, CV_8UC1, none⟩ ∧
      (resize toy ⟨1, 2⟩ 200 8 2 2).status = -3 ∧
      (resize toy ⟨1, 2⟩ 200 8 2 2).callbacks = [] :=
  ⟨by decide, by decide, rfl,
    (resize_decode_failed toy ⟨1, 2⟩ (by decide) 200 8 2 2 (by decide)
      ⟨0, 0, CV_8UC1, none⟩ rfl (by decide)).1,
    (resize_decode_failed toy ⟨1, 2⟩ (by decide) 200 8 2 2 (by decide)
      ⟨0, 0, CV_8UC1, none⟩ rfl (by decide)).2.1⟩

/-- C6: with a sink registered and valid arguments, when the input decodes to a
non-empty image `src` and no step throws (the destination is allocated,
`cv::resize` yields `dst`, `cv::imencode` with extension `.jpg` leaves `buff`,
and the callback returns), `resize` returns `0` and invokes the callback exactly
once, through the registered `store` with the registered `out_ptr` as first
argument and `buff` with its length as data and length. The size handed to
`cv::resize` is width `num_cols`, height `num_rows`, so by the contract of
`cv::resize` the encoded image `dst` has `num_rows` rows and `num_cols`
columns. -/
theorem resize_success (w : World) (s : Sink) (hreg : s.registered)
    (in_ptr : Ptr) (in_size num_rows num_cols : Int)
    (hv : validArgs in_ptr in_size num_rows num_cols)
    (src dst_m dst : Mat) (ok : Bool) (buff : List Nat)
    (hdec : w.imdecode (in_m w in_ptr in_size) IMREAD_COLOR = .ok src)
    (hdata : src.data ≠ none) (hsize : src.size.empty = false)
    (hzero : Mat.zeros w num_rows num_cols CV_8UC1 = .ok dst_m)
    (hres : w.cvResize src dst_m ⟨num_cols, num_rows⟩ = .ok dst)
    (henc : w.imencode ".jpg" dst = .ok (ok, buff))
    (hcall : w.call s.store s.out_ptr buff buff.length = .ok ())
    (hcontract : ResizeContract w) :
    (resize w s in_ptr in_size num_rows num_cols).status = 0 ∧
      (resize w s in_ptr in_size num_rows num_cols).callbacks
        = [.store s.store s.out_ptr buff buff.length] ∧
      (resize w s in_ptr in_size num_rows num_cols).stages
        = [.imdecode (in_m w in_ptr in_size) IMREAD_COLOR,
           .matCreate num_rows num_cols CV_8UC1,
           .cvResize src dst_m ⟨num_cols, num_rows⟩,
           .imencode ".jpg" dst] ∧
      dst.rows = num_rows ∧ dst.cols = num_cols := by
  have hsz := size_of_zeros w num_rows num_cols CV_8UC1 dst_m hzero
  have hne : ¬ (src.data = none ∨ src.size.empty = true) := by
    rintro (h | h)
    · exact hdata h
    · rw [hsize] at h; cases h
  have h : resize w s in_ptr in_size num_rows num_cols
      = ⟨0, [.imdecode (in_m w in_ptr in_size) IMREAD_COLOR,
             .matCreate num_rows num_cols CV_8UC1,
             .cvResize src dst_m ⟨num_cols, num_rows⟩,
             .imencode ".jpg" dst,
             .store s.store s.out_ptr buff buff.length]⟩ := by
    rw [resize_of_valid w s hreg in_ptr in_size num_rows num_cols hv]
    simp only [tryBlock, hdec, hne, if_false, hzero, hsz, hres, henc, hcall]
  rw [h]
  refine ⟨rfl, rfl, rfl, ?_⟩
  exact hcontract src dst_m ⟨num_cols, num_rows⟩ dst hv.2.2.2 hv.2.2.1 hres

/-- The toy resize meets the contract of `cv::resize`. -/
theorem toy_resizeContract : ResizeContract toy := by
  intro src dst dsize out _ _ h
  have h2 : out = ⟨dsize.height, dsize.width, src.type,
      some (List.replicate (dsize.height * dsize.width).toNat ((src.data.getD []).headD 0))⟩ := by
    simp only [toy, toyResize] at h
    cases h
    rfl
  rw [h2]
  exact ⟨rfl, rfl⟩

/-- C6 at the example of the specification: a 4x4 image, `rows = 2`,
`cols = 2`; the callback gets the encoding of a 2x2 image. -/
theorem resize_success_witness :
    (resize toy ⟨1, 2⟩ 100 19 2 2).status = 0 ∧
      (resize toy ⟨1, 2⟩ 100 19 2 2).callbacks = [.store 2 1 [77, 2, 2, 5, 5, 5, 5] 7] :=
  ⟨(resize_success toy ⟨1, 2⟩ (by decide) 100 19 2 2 (by decide)
      ⟨4, 4, CV_8UC3, some (List.replicate 16 5)⟩ ⟨2, 2, CV_8UC1, some [0, 0, 0, 0]⟩
      ⟨2, 2, CV_8UC3, some [5, 5, 5, 5]⟩ true [77, 2, 2, 5, 5, 5, 5]
      rfl (by decide) rfl rfl rfl rfl rfl
      toy_resizeContract).1,
    (resize_success toy ⟨1, 2⟩ (by decide) 100 19 2 2 (by decide)
      ⟨4, 4, CV_8UC3, some (List.replicate 16 5)⟩ ⟨2, 2, CV_8UC1, some [0, 0, 0, 0]⟩
      ⟨2, 2, CV_8UC3, some [5, 5, 5, 5]⟩ true [77, 2, 2, 5, 5, 5, 5]
      rfl (by decide) rfl rfl rfl rfl rfl
      toy_resizeContract).2.1⟩

/-! ## Every path through `resize` -/

/-- The paths through the `try` block and the `catch`, for a registered sink
and valid arguments. -/
theorem resize_paths (w : World) (s : Sink) (hreg : s.registered)
    (in_ptr : Ptr) (in_size num_rows num_cols : Int)
    (hv : validArgs in_ptr in_size num_rows num_cols) :
    ((∃ src, w.imdecode (in_m w in_ptr in_size) IMREAD_COLOR = .ok src ∧
        (src.data = none ∨ src.size.empty = true)) ∧
      (resize w s in_ptr in_size num_rows num_cols).status = -3 ∧
      (resize w s in_ptr in_size num_rows num_cols).callbacks = []) ∨
    (StageThrows w in_ptr in_size num_rows num_cols ∧
      (resize w s in_ptr in_size num_rows num_cols).status = -4 ∧
      (resize w s in_ptr in_size num_rows num_cols).callbacks = []) ∨
    (∃ buff, StagesSucceed w in_ptr in_size num_rows num_cols buff ∧
      (∃ f, w.call s.store s.out_ptr buff buff.length = .error f) ∧
      (resize w s in_ptr in_size num_rows num_cols).status = -4 ∧
      (resize w s in_ptr in_size num_rows num_cols).callbacks
        = [.store s.store s.out_ptr buff buff.length]) ∨
    (∃ buff, StagesSucceed w in_ptr in_size num_rows num_cols buff ∧
      w.call s.store s.out_ptr buff buff.length = .ok () ∧
      (resize w s in_ptr in_size num_rows num_cols).status = 0 ∧
      (resize w s in_ptr in_size num_rows num_cols).callbacks
        = [.store s.store s.out_ptr buff buff.length]) := by
  rw [resize_of_valid w s hreg in_ptr in_size num_rows num_cols hv]
  cases hdec : w.imdecode (in_m w in_ptr in_size) IMREAD_COLOR with
  | error f =>
    right; left
    refine ⟨Or.inl ⟨f, hdec⟩, ?_, ?_⟩ <;> (simp only [tryBlock, hdec]; first | done | rfl)
  | ok src =>
    by_cases hemp : src.data = none ∨ src.size.empty = true
    · left
      refine ⟨⟨src, rfl, hemp⟩, ?_, ?_⟩ <;> (simp only [tryBlock, hdec, hemp, if_true]; first | done | rfl)
    · have hdata : src.data ≠ none := fun h => hemp (Or.inl h)
      have hsize : src.size.empty = false := by
        cases h : src.size.empty
        · rfl
        · exact absurd (Or.inr h) hemp
      cases hzero : Mat.zeros w num_rows num_cols CV_8UC1 with
      | error f =>
        right; left
        refine ⟨Or.inr ⟨src, hdec, hdata, hsize, Or.inl ⟨f, hzero⟩⟩, ?_, ?_⟩ <;>
          (simp only [tryBlock, hdec, hemp, if_false, hzero]; first | done | rfl)
      | ok dst_m =>
        have hsz := size_of_zeros w num_rows num_cols CV_8UC1 dst_m hzero
        cases hres : w.cvResize src dst_m ⟨num_cols, num_rows⟩ with
        | error f =>
          right; left
          refine ⟨Or.inr ⟨src, hdec, hdata, hsize,
            Or.inr ⟨dst_m, hzero, Or.inl ⟨f, hres⟩⟩⟩, ?_, ?_⟩ <;>
            (simp only [tryBlock, hdec, hemp, if_false, hzero, hsz, hres]; first | done | rfl)
        | ok dst =>
          cases henc : w.imencode ".jpg" dst with
          | error f =>
            right; left
            refine ⟨Or.inr ⟨src, hdec, hdata, hsize,
              Or.inr ⟨dst_m, hzero, Or.inr ⟨dst, hres, f, henc⟩⟩⟩, ?_, ?_⟩ <;>
              (simp only [tryBlock, hdec, hemp, if_false, hzero, hsz, hres, henc]; first | done | rfl)
          | ok res =>
            obtain ⟨ok, buff⟩ := res
            have hs : StagesSucceed w in_ptr in_size num_rows num_cols buff :=
              ⟨src, dst_m, dst, ok, hdec, hdata, hsize, hzero, hres, henc⟩
            cases hcall : w.call s.store s.out_ptr buff buff.length with
            | error f =>
              right; right; left
              refine ⟨buff, hs, ⟨f, hcall⟩, ?_, ?_⟩ <;>
                (simp only [tryBlock, hdec, hemp, if_false, hzero, hsz, hres, henc, hcall]; first | done | rfl)
            | ok u =>
              right; right; right
              refine ⟨buff, hs, hcall, ?_, ?_⟩ <;>
                (simp only [tryBlock, hdec, hemp, if_false, hzero, hsz, hres, henc, hcall]; first | done | rfl)

/-- Arguments that fail the input check. -/
theorem not_validArgs (in_ptr : Ptr) (in_size num_rows num_cols : Int)
    (h : ¬ validArgs in_ptr in_size num_rows num_cols) :
    in_ptr = nullptr ∨ in_size ≤ 0 ∨ num_rows ≤ 0 ∨ num_cols ≤ 0 := by
  unfold validArgs at h
  by_cases h1 : in_ptr = nullptr
  · exact Or.inl h1
  · right
    by_contra hc
    apply h
    refine ⟨h1, ?_, ?_, ?_⟩ <;> omega

/-- A call of `register_output` that returns `0` had two non-null arguments and
stored them. -/
theorem register_output_eq_zero (s : Sink) (output store_function : Ptr)
    (h : (register_output s output store_function).1 = 0) :
    output ≠ nullptr ∧ store_function ≠ nullptr ∧
      (register_output s output store_function).2
        = { out_ptr := output, store := store_function } := by
  unfold register_output at h ⊢
  split at h
  · simp at h
  · rename_i hn
    rw [if_neg hn]
    exact ⟨fun h1 => hn (Or.inl h1), fun h2 => hn (Or.inr h2), rfl⟩

/-- An event that passes a handle is a callback invocation. -/
theorem isStore_of_handle (e : Event) (h : Ptr) (he : e.handle = some h) :
    e.isStore = true := by
  cases e <;> first | rfl | simp [Event.handle] at he

/-- An event that calls through a function pointer is a callback invocation. -/
theorem isStore_of_callee (e : Event) (fn : Ptr) (he : e.callee = some fn) :
    e.isStore = true := by
  cases e <;> first | rfl | simp [Event.callee] at he

/-- With a sink registered, `resize` returns `0`, `-2`, `-3` or `-4`. -/
theorem resize_status_of_registered (w : World) (s : Sink) (hreg : s.registered)
    (in_ptr : Ptr) (in_size num_rows num_cols : Int) :
    (resize w s in_ptr in_size num_rows num_cols).status = 0 ∨
      (resize w s in_ptr in_size num_rows num_cols).status = -2 ∨
      (resize w s in_ptr in_size num_rows num_cols).status = -3 ∨
      (resize w s in_ptr in_size num_rows num_cols).status = -4 := by
  by_cases hv : validArgs in_ptr in_size num_rows num_cols
  · rcases resize_paths w s hreg in_ptr in_size num_rows num_cols hv with
      ⟨_, h, _⟩ | ⟨_, h, _⟩ | ⟨_, _, _, h, _⟩ | ⟨_, _, _, h, _⟩
    · exact Or.inr (Or.inr (Or.inl h))
    · exact Or.inr (Or.inr (Or.inr h))
    · exact Or.inr (Or.inr (Or.inr h))
    · exact Or.inl h
  · have h := resize_of_invalid w s hreg in_ptr in_size num_rows num_cols
      (not_validArgs in_ptr in_size num_rows num_cols hv)
    rw [h]
    exact Or.inr (Or.inl rfl)

/-- A registered sink stays registered along any sequence of calls, and none of
the `resize` calls of the sequence returns `-1`. -/
theorem run_of_registered (w : World) (calls : List Call) (s : Sink) (hreg : s.registered) :
    (run w s calls).1.registered ∧
      ∀ r ∈ (run w s calls).2, r.call.isResize = true → r.outcome.status ≠ -1 := by
  induction calls generalizing s with
  | nil => exact ⟨hreg, by simp [run]⟩
  | cons c cs ih =>
    cases c with
    | register_output o f =>
      have hreg2 : (register_output s o f).2.registered := by
        unfold register_output
        split
        · exact hreg
        · rename_i hn
          exact ⟨fun h1 => hn (Or.inl h1), fun h2 => hn (Or.inr h2)⟩
      obtain ⟨ih1, ih2⟩ := ih (register_output s o f).2 hreg2
      refine ⟨by simpa [run, step] using ih1, ?_⟩
      intro r hr hres
      simp only [run, step, List.mem_cons] at hr
      rcases hr with hr | hr
      · subst hr; simp [Call.isResize] at hres
      · exact ih2 r hr hres
    | resize p n rr cc =>
      obtain ⟨ih1, ih2⟩ := ih s hreg
      refine ⟨by simpa [run, step] using ih1, ?_⟩
      intro r hr hres
      simp only [run, step, List.mem_cons] at hr
      rcases hr with hr | hr
      · subst hr
        show (resize w s p n rr cc).status ≠ -1
        rcases resize_status_of_registered w s hreg p n rr cc with h | h | h | h <;>
          rw [h] <;> decide
      · exact ih2 r hr hres

/-! ## Re-registration -/

/-- C7, as stated, fails when both registrations use the same callback:
`register_output(1, 2)` then `register_output(3, 2)` both return `0`, the
handles differ, the following `resize` returns `0`, and it calls through the
function pointer `2`, the callback of the first registration. -/
theorem resize_invokes_shared_callback :
    (register_output Sink.init 1 2).1 = 0 ∧
      (register_output (register_output Sink.init 1 2).2 3 2).1 = 0 ∧
      (1 : Ptr) ≠ 3 ∧
      (resize toy (register_output (register_output Sink.init 1 2).2 3 2).2 100 19 2 2).status
        = 0 ∧
      ∃ e ∈ (resize toy (register_output (register_output Sink.init 1 2).2 3 2).2
          100 19 2 2).trace, e.callee = some 2 := by
  decide

/-- C7, amended: after two successful registrations `(h1, f1)` then `(h2, f2)`
with `h1 ≠ h2`, a `resize` that returns `0` invokes the callback exactly once,
through `f2` with handle `h2`; no event of the call passes `h1`; and no event
calls through `f1`, unless `f1 = f2`. -/
theorem resize_uses_latest_registration (w : World) (s : Sink) (h1 f1 h2 f2 : Ptr)
    (in_ptr : Ptr) (in_size num_rows num_cols : Int)
    (_hr1 : (register_output s h1 f1).1 = 0)
    (hr2 : (register_output (register_output s h1 f1).2 h2 f2).1 = 0)
    (hne : h1 ≠ h2)
    (hok : (resize w (register_output (register_output s h1 f1).2 h2 f2).2
      in_ptr in_size num_rows num_cols).status = 0) :
    (∃ data, (resize w (register_output (register_output s h1 f1).2 h2 f2).2
        in_ptr in_size num_rows num_cols).callbacks = [.store f2 h2 data data.length]) ∧
      (∀ e ∈ (resize w (register_output (register_output s h1 f1).2 h2 f2).2
        in_ptr in_size num_rows num_cols).trace, e.handle ≠ some h1) ∧
      (f1 ≠ f2 → ∀ e ∈ (resize w (register_output (register_output s h1 f1).2 h2 f2).2
        in_ptr in_size num_rows num_cols).trace, e.callee ≠ some f1) := by
  obtain ⟨ho, hf, hst⟩ := register_output_eq_zero _ h2 f2 hr2
  rw [hst] at hok ⊢
  have hreg : (⟨h2, f2⟩ : Sink).registered := ⟨ho, hf⟩
  have hcb : ∃ data, (resize w ⟨h2, f2⟩ in_ptr in_size num_rows num_cols).callbacks
      = [.store f2 h2 data data.length] := by
    by_cases hv : validArgs in_ptr in_size num_rows num_cols
    · rcases resize_paths w ⟨h2, f2⟩ hreg in_ptr in_size num_rows num_cols hv with
        ⟨_, h, _⟩ | ⟨_, h, _⟩ | ⟨_, _, _, h, _⟩ | ⟨buff, _, _, _, h⟩
      · rw [h] at hok; exact absurd hok (by decide)
      · rw [h] at hok; exact absurd hok (by decide)
      · rw [h] at hok; exact absurd hok (by decide)
      · exact ⟨buff, h⟩
    · have h := resize_of_invalid w ⟨h2, f2⟩ hreg in_ptr in_size num_rows num_cols
        (not_validArgs in_ptr in_size num_rows num_cols hv)
      rw [h] at hok; exact absurd hok (by decide)
  obtain ⟨data, hdata⟩ := hcb
  refine ⟨⟨data, hdata⟩, ?_, ?_⟩
  · intro e he heh
    have hmem : e ∈ (resize w ⟨h2, f2⟩ in_ptr in_size num_rows num_cols).callbacks :=
      List.mem_filter.mpr ⟨he, isStore_of_handle e h1 heh⟩
    rw [hdata, List.mem_singleton] at hmem
    subst hmem
    simp only [Event.handle, Option.some.injEq] at heh
    exact hne heh.symm
  · intro hfne e he hec
    have hmem : e ∈ (resize w ⟨h2, f2⟩ in_ptr in_size num_rows num_cols).callbacks :=
      List.mem_filter.mpr ⟨he, isStore_of_callee e f1 hec⟩
    rw [hdata, List.mem_singleton] at hmem
    subst hmem
    simp only [Event.callee, Option.some.injEq] at hec
    exact hfne hec.symm

/-- C7, amended, at a concrete pair of registrations with different
callbacks. -/
theorem resize_uses_latest_registration_witness :
    (resize toy (register_output (register_output Sink.init 1 2).2 3 4).2 100 19 2 2).status
        = 0 ∧
      ∀ e ∈ (resize toy (register_output (register_output Sink.init 1 2).2 3 4).2
        100 19 2 2).trace, e.handle ≠ some 1 :=
  ⟨by decide,
    (resize_uses_latest_registration toy Sink.init 1 2 3 4 100 19 2 2
      (by decide) (by decide) (by decide) (by decide)).2.1⟩

/-! ## Totality and fault containment -/

/-- C8: `resize` returns one of `0`, `-1`, `-2`, `-3`, `-4` for every state and
every argument tuple; and with a sink registered and valid arguments, when the
decode, resize or encode step throws, it returns `-4`. -/
theorem resize_status_total (w : World) (s : Sink)
    (in_ptr : Ptr) (in_size num_rows num_cols : Int) :
    ((resize w s in_ptr in_size num_rows num_cols).status = 0 ∨
      (resize w s in_ptr in_size num_rows num_cols).status = -1 ∨
      (resize w s in_ptr in_size num_rows num_cols).status = -2 ∨
      (resize w s in_ptr in_size num_rows num_cols).status = -3 ∨
      (resize w s in_ptr in_size num_rows num_cols).status = -4) ∧
    (s.registered → validArgs in_ptr in_size num_rows num_cols →
      StageThrows w in_ptr in_size num_rows num_cols →
      (resize w s in_ptr in_size num_rows num_cols).status = -4) := by
  constructor
  · by_cases hreg : s.registered
    · rcases resize_status_of_registered w s hreg in_ptr in_size num_rows num_cols with
        h | h | h | h
      · exact Or.inl h
      · exact Or.inr (Or.inr (Or.inl h))
      · exact Or.inr (Or.inr (Or.inr (Or.inl h)))
      · exact Or.inr (Or.inr (Or.inr (Or.inr h)))
    · have hn : s.out_ptr = nullptr ∨ s.store = nullptr := by
        unfold Sink.registered at hreg
        by_cases h1 : s.out_ptr = nullptr
        · exact Or.inl h1
        · right
          by_contra h2
          exact hreg ⟨h1, h2⟩
      rw [resize_of_not_registered w s hn]
      exact Or.inr (Or.inl rfl)
  · intro hreg hv hthrow
    rw [resize_of_valid w s hreg in_ptr in_size num_rows num_cols hv]
    rcases hthrow with ⟨f, hdec⟩ | ⟨src, hdec, hdata, hsize, hrest⟩
    · simp only [tryBlock, hdec]
    · have hemp : ¬ (src.data = none ∨ src.size.empty = true) := by
        rintro (h | h)
        · exact hdata h
        · rw [hsize] at h; cases h
      rcases hrest with ⟨f, hzero⟩ | ⟨dst_m, hzero, hrest⟩
      · simp only [tryBlock, hdec, hemp, if_false, hzero]
      · have hsz := size_of_zeros w num_rows num_cols CV_8UC1 dst_m hzero
        rcases hrest with ⟨f, hres⟩ | ⟨dst, hres, f, henc⟩
        · simp only [tryBlock, hdec, hemp, if_false, hzero, hsz, hres]
        · simp only [tryBlock, hdec, hemp, if_false, hzero, hsz, hres, henc]

/-- C8 at a concrete call whose decoder throws. -/
theorem resize_status_total_witness :
    (⟨1, 2⟩ : Sink).registered ∧ validArgs 300 8 2 2 ∧ StageThrows toy 300 8 2 2 ∧
      (resize toy ⟨1, 2⟩ 300 8 2 2).status = -4 :=
  ⟨by decide, by decide, Or.inl ⟨.cvException, rfl⟩,
    (resize_status_total toy ⟨1, 2⟩ 300 8 2 2).2 (by decide) (by decide)
      (Or.inl ⟨.cvException, rfl⟩)⟩

/-! ## Delivery -/

/-- C9, as stated, fails when the callback itself throws: the call through
`store` sits inside the `try` block, so the call returns `-4` after the
callback was invoked. -/
theorem resize_callback_throws :
    (⟨1, 9⟩ : Sink).registered ∧ validArgs 100 19 2 2 ∧
      (resize toy ⟨1, 9⟩ 100 19 2 2).status = -4 ∧
      (resize toy ⟨1, 9⟩ 100 19 2 2).status ≠ 0 ∧
      (resize toy ⟨1, 9⟩ 100 19 2 2).callbacks = [.store 9 1 [77, 2, 2, 5, 5, 5, 5] 7] ∧
      (resize toy ⟨1, 9⟩ 100 19 2 2).callbacks ≠ [] := by
  decide

/-- C9, amended: a call of `resize` that returns `-1`, `-2` or `-3` did not
invoke the callback; a call that returns `-4` invoked it only if the callback
itself threw; and whenever the callback was invoked, it was invoked once,
through the registered `store` with the registered `out_ptr`, after the decode,
resize and encode steps had all succeeded, with the encoder's bytes. -/
theorem resize_delivery (w : World) (s : Sink)
    (in_ptr : Ptr) (in_size num_rows num_cols : Int) :
    (((resize w s in_ptr in_size num_rows num_cols).status = -1 ∨
        (resize w s in_ptr in_size num_rows num_cols).status = -2 ∨
        (resize w s in_ptr in_size num_rows num_cols).status = -3) →
      (resize w s in_ptr in_size num_rows num_cols).callbacks = []) ∧
    ((resize w s in_ptr in_size num_rows num_cols).status = -4 →
      (resize w s in_ptr in_size num_rows num_cols).callbacks ≠ [] →
      ∃ buff f, w.call s.store s.out_ptr buff buff.length = .error f ∧
        (resize w s in_ptr in_size num_rows num_cols).callbacks
          = [.store s.store s.out_ptr buff buff.length]) ∧
    ((resize w s in_ptr in_size num_rows num_cols).callbacks ≠ [] →
      ∃ buff, StagesSucceed w in_ptr in_size num_rows num_cols buff ∧
        (resize w s in_ptr in_size num_rows num_cols).callbacks
          = [.store s.store s.out_ptr buff buff.length]) := by
  by_cases hreg : s.registered
  · by_cases hv : validArgs in_ptr in_size num_rows num_cols
    · rcases resize_paths w s hreg in_ptr in_size num_rows num_cols hv with
        ⟨_, _, hc⟩ | ⟨_, _, hc⟩ | ⟨buff, hs, ⟨f, hcall⟩, hst, hc⟩ | ⟨buff, hs, _, hst, hc⟩
      · exact ⟨fun _ => hc, fun _ h => absurd hc h, fun h => absurd hc h⟩
      · exact ⟨fun _ => hc, fun _ h => absurd hc h, fun h => absurd hc h⟩
      · refine ⟨?_, fun _ _ => ⟨buff, f, hcall, hc⟩, fun _ => ⟨buff, hs, hc⟩⟩
        rw [hst]
        intro h
        exact absurd h (by decide)
      · refine ⟨?_, ?_, fun _ => ⟨buff, hs, hc⟩⟩
        · rw [hst]
          intro h
          exact absurd h (by decide)
        · rw [hst]
          intro h
          exact absurd h (by decide)
    · have h := resize_of_invalid w s hreg in_ptr in_size num_rows num_cols
        (not_validArgs in_ptr in_size num_rows num_cols hv)
      rw [h]
      exact ⟨fun _ => rfl, fun _ h => absurd rfl h, fun h => absurd rfl h⟩
  · have hn : s.out_ptr = nullptr ∨ s.store = nullptr := by
      unfold Sink.registered at hreg
      by_cases h1 : s.out_ptr = nullptr
      · exact Or.inl h1
      · right
        by_contra h2
        exact hreg ⟨h1, h2⟩
    rw [resize_of_not_registered w s hn]
    exact ⟨fun _ => rfl, fun _ h => absurd rfl h, fun h => absurd rfl h⟩

/-- C9, amended, at a concrete call that returns `-3`. -/
theorem resize_delivery_witness :
    (resize toy ⟨1, 2⟩ 200 8 2 2).status = -3 ∧
      (resize toy ⟨1, 2⟩ 200 8 2 2).callbacks = [] :=
  ⟨by decide, (resize_delivery toy ⟨1, 2⟩ 200 8 2 2).1 (by decide)⟩

/-! ## The sink stays registered -/

/-- C10: once a call of `register_output` has returned `0`, after any further
sequence of `register_output` and `resize` calls both `out_ptr` and `store` are
non-null, and no `resize` call of that sequence returns `-1`. -/
theorem registered_stays_registered (w : World) (s : Sink) (output store_function : Ptr)
    (h : (register_output s output store_function).1 = 0) (calls : List Call) :
    (run w (register_output s output store_function).2 calls).1.out_ptr ≠ nullptr ∧
      (run w (register_output s output store_function).2 calls).1.store ≠ nullptr ∧
      ∀ r ∈ (run w (register_output s output store_function).2 calls).2,
        r.call.isResize = true → r.outcome.status ≠ -1 := by
  obtain ⟨ho, hf, hst⟩ := register_output_eq_zero s output store_function h
  have hreg : (register_output s output store_function).2.registered := by
    rw [hst]; exact ⟨ho, hf⟩
  obtain ⟨h1, h2⟩ := run_of_registered w calls _ hreg
  exact ⟨h1.1, h1.2, h2⟩

/-- C10 at a concrete sequence: after a successful registration, failing
registrations, a re-registration and `resize` calls of every kind. -/
theorem registered_stays_registered_witness :
    (register_output Sink.init 1 2).1 = 0 ∧
      (run toy (register_output Sink.init 1 2).2
        [.register_output 0 0, .resize 100 19 2 2, .register_output 0 7, .resize 0 0 0 0,
         .register_output 3 9, .resize 100 19 2 2, .resize 200 8 2 2]).1 = ⟨3, 9⟩ ∧
      ∀ r ∈ (run toy (register_output Sink.init 1 2).2
        [.register_output 0 0, .resize 100 19 2 2, .register_output 0 7, .resize 0 0 0 0,
         .register_output 3 9, .resize 100 19 2 2, .resize 200 8 2 2]).2,
        r.call.isResize = true → r.outcome.status ≠ -1 :=
  ⟨by decide, by decide,
    (registered_stays_registered toy Sink.init 1 2 (by decide)
      [.register_output 0 0, .resize 100 19 2 2, .register_output 0 7, .resize 0 0 0 0,
       .register_output 3 9, .resize 100 19 2 2, .resize 200 8 2 2]).2.2⟩

end OpencvResize
